import Mathlib

/-!
Verification of the heuristic code-search engine (`rgai`) of the rtk CLI.

The definitions below are a shallow embedding of `src/rgai_cmd.rs`:
pure Rust functions become Lean functions, `f64` scores become exact
rationals (`ℚ`), byte lengths become a character-wise UTF-8 size count,
and the filesystem walk is modelled as an explicit list of walked files.
String primitives (trim, lowercase, substring search, split) are defined
by structural recursion on the character list so that every definition
evaluates inside the kernel; for valid UTF-8 they coincide with Rust's
byte-based operations.  The natural-log term `ln_1p` of the file
aggregate score is irrational and hence not representable in `ℚ`; it is
passed as an explicit parameter `ln1p : Nat → ℚ` and the theorems
quantify over it (using only the fact `ln_1p 0 = 0` where needed, which
holds exactly for `f64`).  Unicode case mapping and Unicode whitespace
are approximated by ASCII `Char.toLower` / `Char.isWhitespace`; every
concrete input used in a theorem is ASCII, where the two coincide.
-/

namespace Rgai

/-- Whitespace test used by trimming, modelling Rust `char::is_whitespace`
(approximated by ASCII whitespace; all concrete inputs are ASCII). -/
def wsChar (c : Char) : Bool := c.isWhitespace

/-- Drop leading whitespace from a character list. -/
def charTrimLeft (cs : List Char) : List Char := cs.dropWhile wsChar

/-- Drop trailing whitespace from a character list. -/
def charTrimRight (cs : List Char) : List Char := (cs.reverse.dropWhile wsChar).reverse

/-- Model of Rust `str::trim`. -/
def strTrim (s : String) : String := String.mk (charTrimRight (charTrimLeft s.data))

/-- Model of Rust `str::trim_start`. -/
def strTrimStart (s : String) : String := String.mk (charTrimLeft s.data)

/-- Model of Rust `str::to_lowercase` (ASCII case mapping). -/
def strToLower (s : String) : String := String.mk (s.data.map Char.toLower)

/-- Model of Rust `str::starts_with`. -/
def strStartsWith (s pat : String) : Bool := pat.data.isPrefixOf s.data

/-- Model of Rust `str::ends_with`. -/
def strEndsWith (s pat : String) : Bool := pat.data.isSuffixOf s.data

/-- UTF-8 encoded size of one character, modelling Rust `char::len_utf8`. -/
def charUtf8Size (c : Char) : Nat :=
  if c.toNat < 0x80 then 1 else if c.toNat < 0x800 then 2
  else if c.toNat < 0x10000 then 3 else 4

/-- Byte length of a string, modelling Rust `str::len`. -/
def byteLen (s : String) : Nat := s.data.foldl (fun n c => n + charUtf8Size c) 0

/-- Substring search on character lists, modelling Rust `str::contains`
(for valid UTF-8, byte-level substring occurrence coincides with
character-level occurrence because UTF-8 is self-synchronizing). -/
def strContainsL (needle : List Char) : List Char → Bool
  | [] => needle.isEmpty
  | c :: rest => needle.isPrefixOf (c :: rest) || strContainsL needle rest

/-- Substring search on strings, modelling Rust `str::contains`. -/
def strContains (hay pat : String) : Bool := strContainsL pat.data hay.data

/-- Model of Rust `str::is_ascii`: every character is a 7-bit code point. -/
def is_ascii (s : String) : Bool := s.data.all (fun c => c.toNat ≤ 127)

/-- The suffix list of `stem_token` (src/rgai_cmd.rs:565), in source order. -/
def stemSuffixes : List String := ["ingly", "edly", "ing", "ed", "es", "s"]

/-- Model of `stem_token` (src/rgai_cmd.rs:560-572).  Non-ASCII tokens are
returned unchanged; otherwise the first suffix in `stemSuffixes` satisfying
`token.len() > suffix.len() + 2 && token.ends_with(suffix)` is stripped.
For ASCII strings Rust's byte indices coincide with character indices, so
the byte slice `token[..token.len()-suffix.len()]` is `List.take` on
characters. -/
def stem_token (token : String) : String :=
  if !is_ascii token then token
  else
    match stemSuffixes.find? (fun suffix =>
        decide (suffix.length + 2 < token.length) && strEndsWith token suffix) with
    | some suffix => String.mk (token.data.take (token.length - suffix.length))
    | none => token

/-- Model of the `QueryModel` struct (src/rgai_cmd.rs:28-32). -/
structure QueryModel where
  phrase : String
  terms : List String
deriving DecidableEq

/-- Model of the `LineCandidate` struct (src/rgai_cmd.rs:34-39). -/
structure LineCandidate where
  line_idx : Nat
  score : ℚ
  matched_terms : List String
deriving DecidableEq

/-- Model of the `Snippet` struct (src/rgai_cmd.rs:41-45). -/
structure Snippet where
  lines : List (Nat × String)
  matched_terms : List String
deriving DecidableEq

/-- Model of the `SearchHit` struct (src/rgai_cmd.rs:47-53). -/
structure SearchHit where
  path : String
  score : ℚ
  matched_lines : Nat
  snippets : List Snippet
deriving DecidableEq

/-- Model of `dedup_terms` (src/rgai_cmd.rs:580-589): keep the first
occurrence of each string, preserving order (the `HashSet` of seen items
is modelled by the list of already-kept items). -/
def dedupAux (seen : List String) : List String → List String
  | [] => []
  | x :: xs => if seen.contains x then dedupAux seen xs else x :: dedupAux (x :: seen) xs

/-- Model of `dedup_terms` (src/rgai_cmd.rs:580-589). -/
def dedup_terms (input : List String) : List String := dedupAux [] input

/-- Strip a literal character sequence from the front of a list, the
building block of the symbol-definition matcher. -/
def dropLit : List Char → List Char → Option (List Char)
  | [], cs => some cs
  | _ :: _, [] => none
  | k :: ks, c :: cs => if k = c then dropLit ks cs else none

/-- Consume `\s*` (zero or more whitespace characters). -/
def eatWs (cs : List Char) : List Char := cs.dropWhile wsChar

/-- Consume a keyword followed by `\s+` (at least one whitespace), as in
the subpatterns `pub\s+`, `async\s+`, `fn\s+`, ... of `SYMBOL_DEF_RE`. -/
def eatKw (kw : String) (cs : List Char) : Option (List Char) :=
  match dropLit kw.data cs with
  | none => none
  | some rest =>
    match rest with
    | [] => none
    | c :: rest2 => if wsChar c then some (eatWs rest2) else none

/-- First character of an identifier: `[A-Za-z_]`. -/
def isIdentHead (c : Char) : Bool := c.isAlpha || c = '_'

/-- The keyword alternation of `SYMBOL_DEF_RE` (src/rgai_cmd.rs:22-26). -/
def symbolKeywords : List String :=
  ["fn", "def", "class", "struct", "enum", "trait", "interface", "impl", "type"]

/-- Model of `is_symbol_definition` (src/rgai_cmd.rs:591-593), i.e. of the
anchored regex
`^\s*(?:pub\s+)?(?:async\s+)?(?:fn|def|class|struct|enum|trait|interface|impl|type)\s+[A-Za-z_][A-Za-z0-9_]*`.
Greedy left-to-right matching is faithful here: no keyword of the
alternation begins with `pub` or `async`, and every subpattern after a
`\s+` starts with a non-whitespace character, so the regex engine never
needs to backtrack out of an optional group or a greedy whitespace run. -/
def is_symbol_definition (line : String) : Bool :=
  let cs := eatWs line.data
  let cs := match eatKw "pub" cs with | some r => r | none => cs
  let cs := match eatKw "async" cs with | some r => r | none => cs
  symbolKeywords.any (fun kw =>
    match eatKw kw cs with
    | some (c :: _) => isIdentHead c
    | some [] => false
    | none => false)

/-- Model of `is_comment_line` (src/rgai_cmd.rs:595-602). -/
def is_comment_line (line : String) : Bool :=
  let trimmed := strTrimStart line
  strStartsWith trimmed "//" || strStartsWith trimmed "#" || strStartsWith trimmed "*"
    || strStartsWith trimmed "/*" || strStartsWith trimmed "--"

/-- The terms of the query that occur in the lowercased line, in term
order: the `matched_terms` accumulation of `score_line`
(src/rgai_cmd.rs:461-466). -/
def matchedTerms (lower : String) (q : QueryModel) : List String :=
  q.terms.filter (fun term => strContains lower term)

/-- The per-term score contribution of `score_line`
(src/rgai_cmd.rs:461-466): `+1.7` for a matched term of byte length ≥ 5,
`+1.4` for a shorter matched term. -/
def termScore (lower : String) (q : QueryModel) : ℚ :=
  q.terms.foldl (fun acc term =>
    if strContains lower term then acc + (if 5 ≤ byteLen term then 17/10 else 14/10) else acc) 0

/-- The additive part of `score_line` (src/rgai_cmd.rs:447-479): phrase
bonus, term bonuses, multi-term bonus and symbol-definition bonus, before
the comment and length multipliers.  `trimmed` is the trimmed line. -/
def baseLineScore (trimmed : String) (q : QueryModel) : ℚ :=
  let lower := strToLower trimmed
  (if decide (3 ≤ byteLen q.phrase) && strContains lower q.phrase then (6 : ℚ) else 0)
    + termScore lower q
    + (if 1 < (dedup_terms (matchedTerms lower q)).length then (6/5 : ℚ) else 0)
    + (if is_symbol_definition trimmed then (5/2 : ℚ) else 0)

/-- The final score value of a qualifying line (src/rgai_cmd.rs:481-487):
the additive `baseLineScore`, times `0.7` if the line is comment-prefixed,
times `0.9` if the trimmed line has more than 220 characters. -/
def lineScoreValue (trimmed : String) (q : QueryModel) : ℚ :=
  let afterComment :=
    if is_comment_line trimmed then baseLineScore trimmed q * (7/10)
    else baseLineScore trimmed q
  if 220 < trimmed.length then afterComment * (9/10) else afterComment

/-- Model of `score_line` (src/rgai_cmd.rs:447-498).  The accumulated
additive score is `baseLineScore`; then the `×0.7` comment multiplier and
the `×0.9` long-line multiplier apply (`lineScoreValue`), and candidates
below the `1.2` floor (or with no matched term, or on a blank line) are
dropped. -/
def score_line (line_idx : Nat) (line : String) (q : QueryModel) : Option LineCandidate :=
  if strTrim line = "" then none
  else if dedup_terms (matchedTerms (strToLower (strTrim line)) q) = [] then none
  else if lineScoreValue (strTrim line) q < 6/5 then none
  else some ⟨line_idx, lineScoreValue (strTrim line) q,
             dedup_terms (matchedTerms (strToLower (strTrim line)) q)⟩

/-- Model of `score_path` (src/rgai_cmd.rs:500-515): `+3.5` when the
phrase (of byte length ≥ 3) occurs in the lowercased path, `+1.2` per term
occurring in it. -/
def score_path (path : String) (q : QueryModel) : ℚ :=
  let lower := strToLower path
  (if decide (3 ≤ byteLen q.phrase) && strContains lower q.phrase then (7/2 : ℚ) else 0)
    + q.terms.foldl (fun acc term => if strContains lower term then acc + 12/10 else acc) 0

/-- The query model for the single-term query `"auth"`, as
`build_query_model` produces it; used by the concrete scenarios below. -/
def qAuth : QueryModel := ⟨"auth", ["auth"]⟩

/-- Remove a trailing carriage return, as Rust `str::lines` does for lines
terminated by `\r\n`. -/
def stripTrailingCR (l : String) : String :=
  if strEndsWith l "\r" then String.mk l.data.dropLast else l

/-- Split a character list at `'\n'` separators (like `String.splitOn "\n"`,
by structural recursion so it evaluates in the kernel). -/
def splitNL : List Char → List (List Char)
  | [] => [[]]
  | c :: rest =>
    if c = '\n' then [] :: splitNL rest
    else
      match splitNL rest with
      | [] => [[c]]
      | g :: gs => (c :: g) :: gs

/-- Model of Rust `str::lines` (used at src/rgai_cmd.rs:340,377): split on
`'\n'`, strip a trailing `'\r'` from every `\n`-terminated line, keep an
unterminated final line as-is, and drop an empty final segment (so a
trailing newline yields no extra empty line and `""` has no lines). -/
def rustLines (content : String) : List String :=
  let parts := (splitNL content.data).map String.mk
  let terminated := parts.dropLast.map stripTrailingCR
  match parts.getLast? with
  | none => terminated
  | some last => if last = "" then terminated else terminated ++ [last]

/-- The line candidates of a file (src/rgai_cmd.rs:339-344): `score_line`
on every 0-indexed line of the content. -/
def lineCandidates (content : String) (q : QueryModel) : List LineCandidate :=
  (rustLines content).enum.filterMap (fun p => score_line p.1 p.2 q)

/-- The sort comparator of `analyze_file` (src/rgai_cmd.rs:351-355):
higher score first, ties broken by ascending line index.  `candBefore a b`
says `a` is ordered no later than `b`. -/
def candBefore (a b : LineCandidate) : Bool :=
  decide (b.score < a.score) || (decide (a.score = b.score) && decide (a.line_idx ≤ b.line_idx))

/-- Insert a candidate into a list sorted by `candBefore`. -/
def insertCand (c : LineCandidate) : List LineCandidate → List LineCandidate
  | [] => [c]
  | x :: xs => if candBefore c x then c :: x :: xs else x :: insertCand c xs

/-- Model of the candidate sort of `analyze_file` (src/rgai_cmd.rs:351-355)
as an insertion sort over the same total comparator.  Candidates coming
from `lineCandidates` have pairwise distinct line indices, so the
comparator has no ties and the sorted list is unique — any correct sort,
including Rust's, produces this list. -/
def sortCandidates (l : List LineCandidate) : List LineCandidate := l.foldr insertCand []

/-- Model of the greedy snippet selection loop (src/rgai_cmd.rs:357-371):
walk the sorted candidates, skip any candidate whose line index is within
`window` of an already-selected one, push the others, and stop once `cap`
candidates are selected. -/
def selectLoop (window cap : Nat) : List LineCandidate → List LineCandidate → List LineCandidate
  | [], selected => selected
  | cand :: rest, selected =>
    if selected.any (fun e =>
        decide (((e.line_idx : Int) - (cand.line_idx : Int)).natAbs ≤ window)) then
      selectLoop window cap rest selected
    else if cap ≤ selected.length + 1 then selected ++ [cand]
    else selectLoop window cap rest (selected ++ [cand])

/-- The selected snippet anchors of a file: the greedy selection applied to
the sorted candidates with window `2×context_lines+1`
(src/rgai_cmd.rs:357-371, `overlap_window = context_lines * 2 + 1`). -/
def selectedCandidates (q : QueryModel) (content : String)
    (context_lines snippets_per_file : Nat) : List LineCandidate :=
  selectLoop (context_lines * 2 + 1) snippets_per_file
    (sortCandidates (lineCandidates content q)) []

/-- Separation relation between two selected anchors: their line indices
differ by more than `window`. -/
def farFrom (window : Nat) (a b : LineCandidate) : Prop :=
  window < ((a.line_idx : Int) - (b.line_idx : Int)).natAbs

/-- The constant `MAX_SNIPPETS_PER_FILE` (src/rgai_cmd.rs:11). -/
def MAX_SNIPPETS_PER_FILE : Nat := 2

/-- The constant `MAX_SNIPPET_LINE_LEN` (src/rgai_cmd.rs:12). -/
def MAX_SNIPPET_LINE_LEN : Nat := 140

/-- The constant `MIN_FILE_SCORE` (src/rgai_cmd.rs:13). -/
def MIN_FILE_SCORE : ℚ := 12/5

/-- Model of `truncate_chars` (src/rgai_cmd.rs:706-715). -/
def truncate_chars (input : String) (max_len : Nat) : String :=
  if input.length ≤ max_len then input
  else if max_len ≤ 3 then "..."
  else String.mk (input.data.take (max_len - 3)) ++ "..."

/-- Model of `build_snippet` (src/rgai_cmd.rs:405-433): render the
non-blank trimmed lines of `[line−context, line+context]`, truncated to
140 characters, 1-based; fall back to a single empty row at the anchor. -/
def build_snippet (lines : List String) (candidate : LineCandidate)
    (context_lines : Nat) : Snippet :=
  if lines = [] then ⟨[(candidate.line_idx + 1, "")], candidate.matched_terms⟩
  else
    let start := candidate.line_idx - context_lines
    let stop := min (candidate.line_idx + context_lines + 1) lines.length
    let rendered := ((lines.enum.take stop).drop start).filterMap (fun p =>
      if strTrim p.2 = "" then none
      else some (p.1 + 1, truncate_chars (strTrim p.2) MAX_SNIPPET_LINE_LEN))
    if rendered = [] then ⟨[(candidate.line_idx + 1, "")], candidate.matched_terms⟩
    else ⟨rendered, candidate.matched_terms⟩

/-- The rank weights of the file score (src/rgai_cmd.rs:384-390): `1.0`
for the top selected candidate, `0.45` for the second, `0.25` beyond. -/
def rankWeight (idx : Nat) : ℚ := if idx = 0 then 1 else if idx = 1 then 9/20 else 1/4

/-- The weighted sum of selected candidate scores
(src/rgai_cmd.rs:384-391). -/
def weightedSum (selected : List LineCandidate) : ℚ :=
  selected.enum.foldl (fun acc p => acc + p.2.score * rankWeight p.1) 0

/-- The aggregate file score (src/rgai_cmd.rs:383-391):
`path_score + ln(1 + candidate_count) + Σ selected_score × weight`, with
the logarithm abstracted by `ln1p`. -/
def fileAggScore (ln1p : Nat → ℚ) (path content : String) (q : QueryModel)
    (context_lines snippets_per_file : Nat) : ℚ :=
  score_path path q + ln1p (lineCandidates content q).length
    + weightedSum (selectedCandidates q content context_lines snippets_per_file)

/-- Model of `analyze_file` (src/rgai_cmd.rs:332-403): drop the file when
it has no candidates and a path score below the floor; otherwise sort the
candidates, greedily select snippet anchors, drop the file when nothing
was selected or the aggregate score is below the floor, and otherwise emit
a `SearchHit` carrying the aggregate score, the candidate count and the
built snippets. -/
def analyze_file (ln1p : Nat → ℚ) (path content : String) (q : QueryModel)
    (context_lines snippets_per_file : Nat) : Option SearchHit :=
  if lineCandidates content q = [] ∧ score_path path q < MIN_FILE_SCORE then none
  else if selectedCandidates q content context_lines snippets_per_file = [] then none
  else if fileAggScore ln1p path content q context_lines snippets_per_file < MIN_FILE_SCORE then
    none
  else
    some ⟨path, fileAggScore ln1p path content q context_lines snippets_per_file,
          (lineCandidates content q).length,
          (selectedCandidates q content context_lines snippets_per_file).map
            (fun cand => build_snippet (rustLines content) cand context_lines)⟩

/-- A zero function standing in for `f64::ln_1p` in concrete scenarios
where the candidate count is fixed; `ln_1p 0 = 0` holds exactly in `f64`,
and for the scenarios below the chosen values never affect the compared
outcome. -/
def ln0 : Nat → ℚ := fun _ => 0

/-- One regular file reaching the per-file loop of `search_project`
(src/rgai_cmd.rs:288-319).  The walker, the extension blacklist and the
optional type filter (src/rgai_cmd.rs:262-286) only decide WHICH files
reach this loop and touch no counter, so they are modelled by the input
list itself.  `metadata` is the file size reported by `fs::metadata`
(`none` = metadata error, skipped before any counter), `bytes` the result
of `fs::read` (`none` = read error), and `content` the lossy UTF-8
decoding of those bytes handed to `analyze_file` (the decoding itself is
not modelled; no claim depends on it). -/
structure WalkFile where
  path : String
  metadata : Option Nat
  bytes : Option (List Nat)
  content : String
deriving DecidableEq

/-- Model of `looks_binary` (src/rgai_cmd.rs:604-606): a NUL byte within
the first 4096 bytes. -/
def looks_binary (bytes : List Nat) : Bool :=
  (bytes.take 4096).any (fun b => decide (b = 0))

/-- Model of the `SearchOutcome` struct (src/rgai_cmd.rs:55-62); the
`raw_output` transcript feeds only the external tracking sink and is not
modelled. -/
structure SearchOutcome where
  scanned_files : Nat
  skipped_large : Nat
  skipped_binary : Nat
  hits : List SearchHit
deriving DecidableEq

/-- The per-file body of the walk loop (src/rgai_cmd.rs:288-319): on
metadata success count the file as scanned, then skip (and tally) large
files BEFORE reading, then read, skip (and tally) binary files, and
otherwise collect the hit `analyze_file` may produce.  In the source the
`scanned_files` increment happens once before the branches; here it is
distributed into each branch (the branches are mutually exclusive, so the
resulting outcome is identical). -/
def processFile (ln1p : Nat → ℚ) (q : QueryModel)
    (context_lines snippets_per_file max_file_bytes : Nat)
    (outcome : SearchOutcome) (f : WalkFile) : SearchOutcome :=
  match f.metadata with
  | none => outcome
  | some size =>
    if max_file_bytes < size then
      { outcome with scanned_files := outcome.scanned_files + 1,
                     skipped_large := outcome.skipped_large + 1 }
    else
      match f.bytes with
      | none => { outcome with scanned_files := outcome.scanned_files + 1 }
      | some bytes =>
        if looks_binary bytes then
          { outcome with scanned_files := outcome.scanned_files + 1,
                         skipped_binary := outcome.skipped_binary + 1 }
        else
          match analyze_file ln1p f.path f.content q context_lines snippets_per_file with
          | some hit =>
            { outcome with scanned_files := outcome.scanned_files + 1,
                           hits := outcome.hits ++ [hit] }
          | none => { outcome with scanned_files := outcome.scanned_files + 1 }

/-- The hit sort comparator (src/rgai_cmd.rs:322-326): score descending,
ties broken by case-insensitive path ascending.  `hitBefore a b` says `a`
is ordered no later than `b`. -/
def hitBefore (a b : SearchHit) : Bool :=
  decide (b.score < a.score)
    || (decide (a.score = b.score) && !decide (strToLower b.path < strToLower a.path))

/-- Insert a hit into a list sorted by `hitBefore`. -/
def insertHit (h : SearchHit) : List SearchHit → List SearchHit
  | [] => [h]
  | x :: xs => if hitBefore h x then h :: x :: xs else x :: insertHit h xs

/-- Model of the final hit sort of `search_project`
(src/rgai_cmd.rs:322-326) as an insertion sort over the same total
comparator. -/
def sortHits (l : List SearchHit) : List SearchHit := l.foldr insertHit []

/-- The final hit sort applied to an outcome (src/rgai_cmd.rs:322-326). -/
def sortOutcome (outcome : SearchOutcome) : SearchOutcome :=
  { outcome with hits := sortHits outcome.hits }

/-- Model of `search_project` (src/rgai_cmd.rs:244-330): fold the per-file
loop over the walked files starting from the zeroed outcome, then sort the
hits. -/
def search_project (ln1p : Nat → ℚ) (q : QueryModel)
    (context_lines snippets_per_file max_file_bytes : Nat)
    (files : List WalkFile) : SearchOutcome :=
  sortOutcome (files.foldl
    (processFile ln1p q context_lines snippets_per_file max_file_bytes) ⟨0, 0, 0, []⟩)

/-- The saturation bound of `usize::saturating_mul` on a 64-bit target. -/
def USIZE_MAX : Nat := 2 ^ 64 - 1

/-- The effective byte ceiling computed by `run` (src/rgai_cmd.rs:97):
`max_file_kb.saturating_mul(1024).max(1024)` — note the floor of 1024
bytes, active when `max_file_kb = 0`. -/
def max_file_bytes_of (max_file_kb : Nat) : Nat :=
  max (min (max_file_kb * 1024) USIZE_MAX) 1024

/-- A large file used by the C6 witness: 2000 bytes against a 1 KB
ceiling. -/
def bigFile : WalkFile := ⟨"big.rs", some 2000, some [97], "a"⟩

/-- The stopword list `STOP_WORDS` (src/rgai_cmd.rs:15-19). -/
def STOP_WORDS : List String :=
  ["a", "an", "and", "are", "as", "at", "be", "by", "code", "file", "find", "for", "from",
   "how", "in", "is", "it", "of", "on", "or", "search", "show", "that", "the", "this", "to",
   "use", "using", "what", "when", "where", "with", "why"]

/-- Model of `split_terms` (src/rgai_cmd.rs:541-558): cut the input into
runs of alphanumeric/underscore characters, lowercased (ASCII
approximation of the Unicode classes; no claim depends on non-ASCII
tokenization). -/
def split_terms (input : String) : List String :=
  let step := fun (acc : List String × List Char) (ch : Char) =>
    if ch.isAlphanum || ch = '_' then (acc.1, acc.2 ++ [ch.toLower])
    else if acc.2.isEmpty then acc
    else (acc.1 ++ [String.mk acc.2], [])
  let r := input.data.foldl step ([], [])
  if r.2.isEmpty then r.1 else r.1 ++ [String.mk r.2]

/-- Model of `build_query_model` (src/rgai_cmd.rs:517-539): lowercase and
trim the query into the phrase; tokenize; drop tokens shorter than 2 bytes
or in the stopword set; add each surviving token and (if distinct and at
least 2 bytes long) its stem, first-seen order, unique (the `HashSet` of
seen terms is modelled by membership in the accumulated list); fall back
to the whole phrase when every token was filtered out. -/
def build_query_model (query : String) : QueryModel :=
  let phrase := strToLower (strTrim query)
  let step := fun (terms : List String) (token : String) =>
    if byteLen token < 2 ∨ STOP_WORDS.contains token = true then terms
    else
      let terms2 := if terms.contains token then terms else terms ++ [token]
      let stemmed := stem_token token
      if stemmed ≠ token ∧ 2 ≤ byteLen stemmed then
        (if terms2.contains stemmed then terms2 else terms2 ++ [stemmed])
      else terms2
  let terms := (split_terms phrase).foldl step []
  ⟨phrase, if terms.isEmpty ∧ phrase ≠ "" then [phrase] else terms⟩

/-- A JSON value, the rendering target of the `serde_json::json!` trees
built in `run` (src/rgai_cmd.rs:111-176). -/
inductive Json where
  | str : String → Json
  | nat : Nat → Json
  | rat : ℚ → Json
  | arr : List Json → Json
  | obj : List (String × Json) → Json

/-- One `{line, text}` row of a snippet (src/rgai_cmd.rs:149). -/
def lineJson (p : Nat × String) : Json :=
  Json.obj [("line", Json.nat p.1), ("text", Json.str p.2)]

/-- One snippet object (src/rgai_cmd.rs:151-154). -/
def snippetJson (s : Snippet) : Json :=
  Json.obj [("lines", Json.arr (s.lines.map lineJson)),
            ("matched_terms", Json.arr (s.matched_terms.map Json.str))]

/-- One hit object (src/rgai_cmd.rs:157-162). -/
def hitJson (h : SearchHit) : Json :=
  Json.obj [("path", Json.str h.path), ("score", Json.rat h.score),
            ("matched_lines", Json.nat h.matched_lines),
            ("snippets", Json.arr (h.snippets.map snippetJson))]

/-- The JSON document emitted by `run`: the zero-hit object of
src/rgai_cmd.rs:113-121 (WITHOUT a `shown_hits` field) when there are no
hits, and the full object of src/rgai_cmd.rs:166-175 otherwise.  The keys
are listed in source insertion order; `serde_json` may reorder them when
serializing, which does not affect key membership. -/
def renderJson (query path : String) (max_results : Nat) (outcome : SearchOutcome) : Json :=
  if outcome.hits = [] then
    Json.obj [("query", Json.str query), ("path", Json.str path),
              ("total_hits", Json.nat 0),
              ("scanned_files", Json.nat outcome.scanned_files),
              ("skipped_large", Json.nat outcome.skipped_large),
              ("skipped_binary", Json.nat outcome.skipped_binary),
              ("hits", Json.arr [])]
  else
    Json.obj [("query", Json.str query), ("path", Json.str path),
              ("total_hits", Json.nat outcome.hits.length),
              ("shown_hits", Json.nat (min max_results outcome.hits.length)),
              ("scanned_files", Json.nat outcome.scanned_files),
              ("skipped_large", Json.nat outcome.skipped_large),
              ("skipped_binary", Json.nat outcome.skipped_binary),
              ("hits", Json.arr ((outcome.hits.take max_results).map hitJson))]

/-- The top-level field names of a JSON document. -/
def topLevelKeys : Json → List String
  | Json.obj fields => fields.map (fun p => p.1)
  | _ => []

/-- Model of `run` (src/rgai_cmd.rs:64-242) up to rendering: trim the
query and fail on emptiness BEFORE the root-existence check; fail when the
root does not exist; otherwise build the query model, compute the byte
ceiling and the compact-mode parameters, search, and return the outcome
together with the JSON document when JSON output was requested (the plain
text rendering is not modelled; no claim concerns it).  The filesystem is
the pair (`rootExists`, `files`). -/
def run (ln1p : Nat → ℚ) (query path : String)
    (max_results context_lines max_file_kb : Nat)
    (json_output compact rootExists : Bool) (files : List WalkFile) :
    Except String (SearchOutcome × Option Json) :=
  if strTrim query = "" then Except.error "query cannot be empty"
  else if rootExists = false then Except.error ("path does not exist: " ++ path)
  else
    let query_model := build_query_model (strTrim query)
    let effective_context := if compact then 0 else context_lines
    let snippets_per_file := if compact then 1 else MAX_SNIPPETS_PER_FILE
    let outcome := search_project ln1p query_model effective_context snippets_per_file
      (max_file_bytes_of max_file_kb) files
    Except.ok (outcome,
      if json_output then some (renderJson (strTrim query) path max_results outcome) else none)

/-- Helper: full case analysis of `stem_token`.  Either the token is
returned unchanged, or the first suffix satisfying the guard was stripped,
in which case the guard `suffix.length + 2 < token.length` held and the
result length is `token.length - suffix.length`. -/
theorem stem_token_cases (token : String) :
    stem_token token = token ∨
    ∃ suffix ∈ stemSuffixes,
      suffix.length + 2 < token.length ∧ strEndsWith token suffix = true ∧
      (stem_token token).length = token.length - suffix.length := by
  unfold stem_token
  cases hascii : is_ascii token with
  | false => simp
  | true =>
    simp only [hascii, Bool.not_true, Bool.false_eq_true, if_false]
    cases hfind : stemSuffixes.find? (fun suffix =>
        decide (suffix.length + 2 < token.length) && strEndsWith token suffix) with
    | none => simp
    | some suffix =>
      right
      have hp := List.find?_some hfind
      have hmem := List.mem_of_find?_eq_some hfind
      simp only [Bool.and_eq_true, decide_eq_true_eq] at hp
      refine ⟨suffix, hmem, hp.1, hp.2, ?_⟩
      have hlen : (String.mk (token.data.take (token.length - suffix.length))).length
          = min (token.length - suffix.length) token.data.length := by
        show (token.data.take (token.length - suffix.length)).length = _
        exact List.length_take _ _
      have hdata : token.length = token.data.length := rfl
      simp only [hlen]
      omega

/-- Helper: every entry of `stemSuffixes` is a nonempty string. -/
theorem stemSuffixes_len (suffix : String) (h : suffix ∈ stemSuffixes) :
    1 ≤ suffix.length := by
  fin_cases h <;> decide

/-- C3 (corrected): `stem_token` strips the first matching suffix among
`{ingly, edly, ing, ed, es, s}` exactly under the guard
`suffix.length + 2 < token.length`, i.e. the remaining stem always keeps at
least 3 characters — NOT the claimed "stem at least 2 characters longer
than the suffix".  When no suffix satisfies this guard the token is
returned unchanged. -/
theorem stem_token_guard (token : String) :
    stem_token token = token ∨
    ∃ suffix ∈ stemSuffixes,
      suffix.length + 2 < token.length ∧ strEndsWith token suffix = true ∧
      (stem_token token).length = token.length - suffix.length ∧
      3 ≤ (stem_token token).length := by
  rcases stem_token_cases token with h | ⟨suffix, hmem, hguard, hend, hlen⟩
  · exact Or.inl h
  · exact Or.inr ⟨suffix, hmem, hguard, hend, hlen, by omega⟩

/-- C3 counterexample: `stem_token "boxes" = "box"`, stripping the suffix
`"es"` although the remaining stem `"box"` (3 chars) is NOT at least 2
characters longer than `"es"` (which would require length ≥ 4).  This
refutes the claimed guard "stem length ≥ suffix length + 2". -/
theorem stem_token_guard_counterexample :
    stem_token "boxes" = "box" ∧ "boxes" = "box" ++ "es" ∧
    ¬ ("es".length + 2 ≤ "box".length) := by
  refine ⟨by decide, by decide, by decide⟩

/-- C4 (corrected): stemming is NOT idempotent; what holds instead is that
a second application of `stem_token` either leaves the stemmed token
unchanged or strips a further suffix, strictly shortening it. -/
theorem stem_token_reapply (token : String) :
    stem_token (stem_token token) = stem_token token ∨
    (stem_token (stem_token token)).length < (stem_token token).length := by
  rcases stem_token_cases (stem_token token) with h | ⟨suffix, hmem, hguard, _, hlen⟩
  · exact Or.inl h
  · refine Or.inr ?_
    have h1 := stemSuffixes_len suffix hmem
    omega

/-- C4 counterexample: `stem_token "endings" = "ending"` (strips `"s"`)
but `stem_token "ending" = "end"` (strips `"ing"`), so stemming an
already-stemmed token does not return it unchanged. -/
theorem stem_token_reapply_counterexample :
    stem_token "endings" = "ending" ∧ stem_token (stem_token "endings") = "end" ∧
    ("end" : String) ≠ "ending" := by
  refine ⟨by decide, by decide, by decide⟩

/-- Helper: the score carried by a candidate produced by `score_line` is
exactly `lineScoreValue` of the trimmed line. -/
theorem score_line_some_score (i : Nat) (line : String) (q : QueryModel) (c : LineCandidate)
    (h : score_line i line q = some c) :
    c.score = lineScoreValue (strTrim line) q := by
  unfold score_line at h
  split_ifs at h
  all_goals injection h with h2
  all_goals rw [← h2]

/-- C7 (corrected): the `×0.7` comment multiplier is exact ONLY when the
comment marker changes nothing else: for two lines with the same additive
base score (same phrase/term matches, same multi-term and
symbol-definition bonuses), the same >220-character status, exactly one of
them comment-prefixed, and both surviving the `1.2` floor, the comment
line's candidate score is exactly `0.7` times the other's.  (The original
claim fails because prefixing a comment marker can also destroy the
symbol-definition bonus, change phrase matching or the length penalty, or
push the line below the floor; see the counterexample.) -/
theorem comment_score_ratio (i j : Nat) (l1 l2 : String) (q : QueryModel)
    (c1 c2 : LineCandidate)
    (hbase : baseLineScore (strTrim l1) q = baseLineScore (strTrim l2) q)
    (hc1 : is_comment_line (strTrim l1) = false)
    (hc2 : is_comment_line (strTrim l2) = true)
    (hlen : (220 < (strTrim l1).length) ↔ (220 < (strTrim l2).length))
    (h1 : score_line i l1 q = some c1)
    (h2 : score_line j l2 q = some c2) :
    c2.score = 7/10 * c1.score := by
  have e1 := score_line_some_score i l1 q c1 h1
  have e2 := score_line_some_score j l2 q c2 h2
  unfold lineScoreValue at e1 e2
  rw [hc1] at e1
  rw [hc2] at e2
  simp only [Bool.false_eq_true, if_false, if_true] at e1 e2
  by_cases hL : 220 < (strTrim l1).length
  · have hL2 := hlen.mp hL
    rw [if_pos hL] at e1
    rw [if_pos hL2] at e2
    rw [e1, e2, hbase]; ring
  · have hL2 : ¬ 220 < (strTrim l2).length := fun h => hL (hlen.mpr h)
    rw [if_neg hL] at e1
    rw [if_neg hL2] at e2
    rw [e1, e2, hbase]; ring

/-- C7 counterexample: for the query `"auth"`, the line `"fn auth()"`
scores `6 + 1.4 + 2.5 = 9.9` (phrase + term + symbol definition), while
the comment-prefixed but otherwise identical line `"//fn auth()"` scores
`(6 + 1.4) × 0.7 = 5.18`: the comment marker also destroys the
symbol-definition bonus, so the ratio is not `0.7` (it would require
`6.93`). -/
theorem comment_score_ratio_counterexample :
    (score_line 0 "fn auth()" qAuth).map LineCandidate.score = some (99/10) ∧
    (score_line 0 "//fn auth()" qAuth).map LineCandidate.score = some (259/50) ∧
    (259/50 : ℚ) ≠ 7/10 * (99/10) := by
  refine ⟨by with_unfolding_all decide, by with_unfolding_all decide, by with_unfolding_all decide⟩

/-- Witness for the corrected C7: for the query `"auth"`, the lines
`"auth x"` and `"// auth x"` have equal base score `7.4`, only the second
is a comment, and the produced scores are `7.4` and `5.18 = 0.7 × 7.4`. -/
theorem comment_score_ratio_witness :
    (⟨1, 259/50, ["auth"]⟩ : LineCandidate).score
      = 7/10 * (⟨0, 37/5, ["auth"]⟩ : LineCandidate).score :=
  comment_score_ratio 0 1 "auth x" "// auth x" qAuth ⟨0, 37/5, ["auth"]⟩ ⟨1, 259/50, ["auth"]⟩
    (by with_unfolding_all decide) (by decide) (by decide) (by decide)
    (by with_unfolding_all decide) (by with_unfolding_all decide)

/-- Helper: the absolute difference of two integers is symmetric. -/
theorem natAbs_sub_swap (a b : Int) : (a - b).natAbs = (b - a).natAbs := by
  rw [← Int.natAbs_neg (a - b), neg_sub]

/-- Helper: `farFrom` is symmetric. -/
theorem farFrom_symm (window : Nat) : Symmetric (farFrom window) := by
  intro a b h
  unfold farFrom at *
  rwa [natAbs_sub_swap]

/-- Helper: the greedy selection loop preserves pairwise separation of the
selected list: a candidate is only pushed when its distance to every
already-selected anchor exceeds the window. -/
theorem selectLoop_pairwise (window cap : Nat) :
    ∀ (rest selected : List LineCandidate),
      selected.Pairwise (farFrom window) →
      (selectLoop window cap rest selected).Pairwise (farFrom window) := by
  intro rest
  induction rest with
  | nil => intro selected h; exact h
  | cons cand rest ih =>
    intro selected h
    unfold selectLoop
    by_cases hov : selected.any (fun e =>
        decide (((e.line_idx : Int) - (cand.line_idx : Int)).natAbs ≤ window)) = true
    · rw [if_pos hov]
      exact ih selected h
    · rw [if_neg hov]
      have hfar : ∀ e ∈ selected, farFrom window e cand := by
        intro e he
        have h2 : ¬ (((e.line_idx : Int) - (cand.line_idx : Int)).natAbs ≤ window) :=
          fun hle => hov (List.any_eq_true.mpr ⟨e, he, decide_eq_true hle⟩)
        unfold farFrom
        omega
      have hpw : (selected ++ [cand]).Pairwise (farFrom window) := by
        rw [List.pairwise_append]
        refine ⟨h, List.pairwise_singleton _ _, ?_⟩
        intro a ha b hb
        rw [List.mem_singleton] at hb
        subst hb
        exact hfar a ha
      by_cases hcap : cap ≤ selected.length + 1
      · rw [if_pos hcap]; exact hpw
      · rw [if_neg hcap]; exact ih _ hpw

/-- C8 (confirmed): any two distinct snippet anchors selected for the same
file have line indices that differ by MORE than `2×context_lines+1`: the
greedy selection (src/rgai_cmd.rs:357-371) skips every candidate within
the overlap window of an already-selected anchor. -/
theorem selected_anchor_separation (q : QueryModel) (content : String)
    (context_lines snippets_per_file : Nat) (a b : LineCandidate)
    (ha : a ∈ selectedCandidates q content context_lines snippets_per_file)
    (hb : b ∈ selectedCandidates q content context_lines snippets_per_file)
    (hne : a ≠ b) :
    2 * context_lines + 1 < ((a.line_idx : Int) - (b.line_idx : Int)).natAbs := by
  have hp : (selectedCandidates q content context_lines snippets_per_file).Pairwise
      (farFrom (context_lines * 2 + 1)) :=
    selectLoop_pairwise _ _ _ [] (List.Pairwise.nil)
  have := List.Pairwise.forall (farFrom_symm (context_lines * 2 + 1)) hp ha hb hne
  unfold farFrom at this
  omega

/-- Witness for C8: for the query `"auth"`, content with matching lines 0
and 4 and `context_lines = 1`, both anchors are selected and their
distance 4 exceeds the window `2×1+1 = 3`. -/
theorem selected_anchor_separation_witness :
    2 * 1 + 1 <
      (((⟨0, 37/5, ["auth"]⟩ : LineCandidate).line_idx : Int)
        - ((⟨4, 37/5, ["auth"]⟩ : LineCandidate).line_idx : Int)).natAbs :=
  selected_anchor_separation qAuth "auth\nx\nx\nx\nauth" 1 2
    ⟨0, 37/5, ["auth"]⟩ ⟨4, 37/5, ["auth"]⟩
    (by with_unfolding_all decide) (by with_unfolding_all decide)
    (by with_unfolding_all decide)

/-- C2 (corrected): with `context_lines = 0` the overlap window is `1`,
so a candidate is excluded when its line index is the same OR ADJACENT to
an already-selected anchor — not only on exact equality.  Consequently any
two distinct selected anchors differ by at least 2 lines. -/
theorem context_zero_adjacent_exclusion (q : QueryModel) (content : String)
    (snippets_per_file : Nat) (a b : LineCandidate)
    (ha : a ∈ selectedCandidates q content 0 snippets_per_file)
    (hb : b ∈ selectedCandidates q content 0 snippets_per_file)
    (hne : a.line_idx ≠ b.line_idx) :
    2 ≤ ((a.line_idx : Int) - (b.line_idx : Int)).natAbs := by
  have hp : (selectedCandidates q content 0 snippets_per_file).Pairwise (farFrom (0 * 2 + 1)) :=
    selectLoop_pairwise _ _ _ [] (List.Pairwise.nil)
  have hne2 : a ≠ b := fun h => hne (h ▸ rfl)
  have := List.Pairwise.forall (farFrom_symm (0 * 2 + 1)) hp ha hb hne2
  unfold farFrom at this
  omega

/-- C2 counterexample: for the query `"auth"` and content with candidates
on the adjacent lines 0 and 1, `context_lines = 0` and a cap of 2, only
line 0 is selected: line 1 is excluded although its index differs from the
selected anchor's, refuting "exact-line exclusion". -/
theorem context_zero_adjacent_exclusion_counterexample :
    (lineCandidates "auth\nauth" qAuth).map LineCandidate.line_idx = [0, 1] ∧
    (selectedCandidates qAuth "auth\nauth" 0 2).map LineCandidate.line_idx = [0] := by
  refine ⟨by with_unfolding_all decide, by with_unfolding_all decide⟩

/-- Witness for the corrected C2: with candidates on lines 0 and 2 (two
lines apart) and `context_lines = 0`, both are selected and their distance
is at least 2. -/
theorem context_zero_adjacent_exclusion_witness :
    2 ≤ (((⟨0, 37/5, ["auth"]⟩ : LineCandidate).line_idx : Int)
        - ((⟨2, 37/5, ["auth"]⟩ : LineCandidate).line_idx : Int)).natAbs :=
  context_zero_adjacent_exclusion qAuth "auth\nx\nauth" 2
    ⟨0, 37/5, ["auth"]⟩ ⟨2, 37/5, ["auth"]⟩
    (by with_unfolding_all decide) (by with_unfolding_all decide) (by decide)

/-- Helper: inserting into a sorted candidate list never yields `[]`. -/
theorem insertCand_ne_nil (c : LineCandidate) (l : List LineCandidate) :
    insertCand c l ≠ [] := by
  cases l with
  | nil => simp [insertCand]
  | cons x xs =>
    unfold insertCand
    by_cases h : candBefore c x = true
    · rw [if_pos h]; simp
    · rw [if_neg h]; simp

/-- Helper: the candidate sort returns `[]` only on `[]`. -/
theorem sortCandidates_eq_nil_iff (l : List LineCandidate) :
    sortCandidates l = [] ↔ l = [] := by
  cases l with
  | nil => simp [sortCandidates]
  | cons x xs =>
    constructor
    · intro h
      exact absurd h (insertCand_ne_nil x (sortCandidates xs))
    · intro h
      exact absurd h (by simp)

/-- Helper: the greedy selection loop never shrinks the selected list to
`[]` once it is nonempty. -/
theorem selectLoop_ne_nil_of_sel (window cap : Nat) :
    ∀ (rest selected : List LineCandidate), selected ≠ [] →
      selectLoop window cap rest selected ≠ [] := by
  intro rest
  induction rest with
  | nil => intro selected h; exact h
  | cons cand rest ih =>
    intro selected h
    unfold selectLoop
    by_cases hov : selected.any (fun e =>
        decide (((e.line_idx : Int) - (cand.line_idx : Int)).natAbs ≤ window)) = true
    · rw [if_pos hov]; exact ih selected h
    · rw [if_neg hov]
      by_cases hcap : cap ≤ selected.length + 1
      · rw [if_pos hcap]; simp
      · rw [if_neg hcap]
        exact ih _ (by simp)

/-- Helper: the selection is empty exactly when the file has no line
candidates (the first candidate of a nonempty sorted list is always
pushed, whatever the cap). -/
theorem selectedCandidates_eq_nil_iff (q : QueryModel) (content : String)
    (context_lines snippets_per_file : Nat) :
    selectedCandidates q content context_lines snippets_per_file = [] ↔
      lineCandidates content q = [] := by
  constructor
  · intro h
    by_contra hc
    have hsort : sortCandidates (lineCandidates content q) ≠ [] :=
      fun hs => hc ((sortCandidates_eq_nil_iff _).mp hs)
    unfold selectedCandidates at h
    cases hs : sortCandidates (lineCandidates content q) with
    | nil => exact hsort hs
    | cons cand rest =>
      rw [hs] at h
      unfold selectLoop at h
      simp only [List.any_nil, Bool.false_eq_true, if_false] at h
      by_cases hcap : snippets_per_file ≤ List.length ([] : List LineCandidate) + 1
      · rw [if_pos hcap] at h
        simp at h
      · rw [if_neg hcap] at h
        exact selectLoop_ne_nil_of_sel _ _ rest ([] ++ [cand]) (by simp) h
  · intro h
    unfold selectedCandidates
    rw [h]
    rfl

/-- C1 (corrected): `analyze_file` excludes a file exactly when it has no
line candidates at all OR its aggregate score is below the `2.4` floor;
and every reported hit carries the aggregate score.  In particular a file
with zero line candidates is ALWAYS excluded — even when its path score
reaches `2.4` — because the greedy selection is then empty and
`analyze_file` returns `None` before the aggregate check
(src/rgai_cmd.rs:373-375); the path score alone never produces a hit. -/
theorem analyze_file_exclusion (ln1p : Nat → ℚ) (path content : String) (q : QueryModel)
    (context_lines snippets_per_file : Nat) :
    (analyze_file ln1p path content q context_lines snippets_per_file = none ↔
      (lineCandidates content q = [] ∨
        fileAggScore ln1p path content q context_lines snippets_per_file < MIN_FILE_SCORE)) ∧
    (∀ hit, analyze_file ln1p path content q context_lines snippets_per_file = some hit →
      hit.score = fileAggScore ln1p path content q context_lines snippets_per_file) := by
  unfold analyze_file
  by_cases hc : lineCandidates content q = []
  · have hsel : selectedCandidates q content context_lines snippets_per_file = [] :=
      (selectedCandidates_eq_nil_iff q content context_lines snippets_per_file).mpr hc
    constructor
    · by_cases hp : score_path path q < MIN_FILE_SCORE
      · rw [if_pos ⟨hc, hp⟩]
        simp [hc]
      · rw [if_neg (fun h => hp h.2), if_pos hsel]
        simp [hc]
    · intro hit h
      by_cases hp : score_path path q < MIN_FILE_SCORE
      · rw [if_pos ⟨hc, hp⟩] at h
        exact absurd h (by simp)
      · rw [if_neg (fun h2 => hp h2.2), if_pos hsel] at h
        exact absurd h (by simp)
  · have hsel : selectedCandidates q content context_lines snippets_per_file ≠ [] :=
      fun h => hc ((selectedCandidates_eq_nil_iff q content context_lines snippets_per_file).mp h)
    rw [if_neg (fun h => hc h.1), if_neg hsel]
    constructor
    · by_cases hs : fileAggScore ln1p path content q context_lines snippets_per_file
          < MIN_FILE_SCORE
      · rw [if_pos hs]
        simp [hs]
      · rw [if_neg hs]
        simp [hc, hs]
    · intro hit h
      by_cases hs : fileAggScore ln1p path content q context_lines snippets_per_file
          < MIN_FILE_SCORE
      · rw [if_pos hs] at h
        exact absurd h (by simp)
      · rw [if_neg hs] at h
        injection h with h2
        rw [← h2]

/-- C1 counterexample: for the query `"auth"`, the empty file at path
`"auth/auth.rs"` has no line candidates and path score
`3.5 + 1.2 = 4.7 ≥ 2.4`, yet `analyze_file` returns `None` — the claim
says it must be reported as a hit scoring its path score.  (With zero
candidates the `ln(1+0) = 0` term vanishes, so `ln0` is exact here.) -/
theorem analyze_file_exclusion_counterexample :
    analyze_file ln0 "auth/auth.rs" "" qAuth 0 2 = none ∧
    MIN_FILE_SCORE ≤ score_path "auth/auth.rs" qAuth := by
  refine ⟨by with_unfolding_all decide, by with_unfolding_all decide⟩

/-- Witness for the corrected C1: the exclusion equivalence evaluated at a
concrete file (the one-line file `"pub fn auth()"` at `"auth.rs"`). -/
theorem analyze_file_exclusion_witness :
    analyze_file ln0 "auth.rs" "pub fn auth()" qAuth 0 2 = none ↔
      (lineCandidates "pub fn auth()" qAuth = [] ∨
        fileAggScore ln0 "auth.rs" "pub fn auth()" qAuth 0 2 < MIN_FILE_SCORE) :=
  (analyze_file_exclusion ln0 "auth.rs" "pub fn auth()" qAuth 0 2).1

/-- Helper: each loop step preserves the counter invariant
`skipped_large + skipped_binary ≤ scanned_files`. -/
theorem processFile_counters (ln1p : Nat → ℚ) (q : QueryModel)
    (context_lines snippets_per_file max_file_bytes : Nat)
    (outcome : SearchOutcome) (f : WalkFile)
    (h : outcome.skipped_large + outcome.skipped_binary ≤ outcome.scanned_files) :
    (processFile ln1p q context_lines snippets_per_file max_file_bytes outcome f).skipped_large
      + (processFile ln1p q context_lines snippets_per_file max_file_bytes outcome f).skipped_binary
      ≤ (processFile ln1p q context_lines snippets_per_file max_file_bytes outcome f).scanned_files := by
  unfold processFile
  cases f.metadata with
  | none => exact h
  | some size =>
    dsimp only
    by_cases hl : max_file_bytes < size
    · rw [if_pos hl]; dsimp only; omega
    · rw [if_neg hl]
      cases f.bytes with
      | none => dsimp only; omega
      | some bytes =>
        dsimp only
        by_cases hb : looks_binary bytes = true
        · rw [if_pos hb]; dsimp only; omega
        · rw [if_neg hb]
          cases analyze_file ln1p f.path f.content q context_lines snippets_per_file with
          | some hit => dsimp only; omega
          | none => dsimp only; omega

/-- Helper: the loop fold preserves the counter invariant. -/
theorem foldl_processFile_counters (ln1p : Nat → ℚ) (q : QueryModel)
    (context_lines snippets_per_file max_file_bytes : Nat) :
    ∀ (files : List WalkFile) (outcome : SearchOutcome),
      outcome.skipped_large + outcome.skipped_binary ≤ outcome.scanned_files →
      (files.foldl (processFile ln1p q context_lines snippets_per_file max_file_bytes)
          outcome).skipped_large
        + (files.foldl (processFile ln1p q context_lines snippets_per_file max_file_bytes)
          outcome).skipped_binary
        ≤ (files.foldl (processFile ln1p q context_lines snippets_per_file max_file_bytes)
          outcome).scanned_files := by
  intro files
  induction files with
  | nil => intro outcome h; exact h
  | cons f rest ih =>
    intro outcome h
    exact ih _ (processFile_counters ln1p q context_lines snippets_per_file max_file_bytes
      outcome f h)

/-- C10 (confirmed): in every outcome of `search_project`, every file
tallied as `skipped_large` or `skipped_binary` was already counted in
`scanned_files` (the scanned counter is incremented right after the
metadata read, before the size and binary checks), so
`skipped_large + skipped_binary ≤ scanned_files`. -/
theorem search_project_counters (ln1p : Nat → ℚ) (q : QueryModel)
    (context_lines snippets_per_file max_file_bytes : Nat) (files : List WalkFile) :
    (search_project ln1p q context_lines snippets_per_file max_file_bytes files).skipped_large
      + (search_project ln1p q context_lines snippets_per_file max_file_bytes
          files).skipped_binary
      ≤ (search_project ln1p q context_lines snippets_per_file max_file_bytes
          files).scanned_files := by
  unfold search_project
  exact foldl_processFile_counters ln1p q context_lines snippets_per_file max_file_bytes
    files ⟨0, 0, 0, []⟩ (by simp)

/-- C6 (corrected): a file whose size exceeds the EFFECTIVE byte ceiling
`max(max_file_kb × 1024, 1024)` (saturating; src/rgai_cmd.rs:97) is
tallied under `skipped_large`, still counted as scanned, contributes no
hit, and its bytes and content are never consulted.  The original claim's
ceiling "`max_file_kb` kilobytes" is wrong when `max_file_kb = 0`, where
the effective floor of 1024 bytes applies (see the counterexample). -/
theorem large_file_never_read (ln1p : Nat → ℚ) (q : QueryModel)
    (context_lines snippets_per_file max_file_kb : Nat) (files : List WalkFile)
    (f : WalkFile) (size : Nat) (bytes2 : Option (List Nat)) (content2 : String)
    (hmeta : f.metadata = some size)
    (hsize : max_file_bytes_of max_file_kb < size) :
    (search_project ln1p q context_lines snippets_per_file (max_file_bytes_of max_file_kb)
        (files ++ [f])).skipped_large
      = (search_project ln1p q context_lines snippets_per_file (max_file_bytes_of max_file_kb)
          files).skipped_large + 1 ∧
    (search_project ln1p q context_lines snippets_per_file (max_file_bytes_of max_file_kb)
        (files ++ [f])).hits
      = (search_project ln1p q context_lines snippets_per_file (max_file_bytes_of max_file_kb)
          files).hits ∧
    (search_project ln1p q context_lines snippets_per_file (max_file_bytes_of max_file_kb)
        (files ++ [f])).scanned_files
      = (search_project ln1p q context_lines snippets_per_file (max_file_bytes_of max_file_kb)
          files).scanned_files + 1 ∧
    search_project ln1p q context_lines snippets_per_file (max_file_bytes_of max_file_kb)
        (files ++ [{ f with bytes := bytes2, content := content2 }])
      = search_project ln1p q context_lines snippets_per_file (max_file_bytes_of max_file_kb)
          (files ++ [f]) := by
  have hstep : ∀ (g : WalkFile), g.metadata = some size →
      ∀ outcome, processFile ln1p q context_lines snippets_per_file
        (max_file_bytes_of max_file_kb) outcome g
        = { outcome with scanned_files := outcome.scanned_files + 1,
                         skipped_large := outcome.skipped_large + 1 } := by
    intro g hg outcome
    unfold processFile
    rw [hg]
    dsimp only
    rw [if_pos hsize]
  unfold search_project
  rw [List.foldl_append, List.foldl_append]
  simp only [List.foldl_cons, List.foldl_nil]
  rw [hstep f hmeta, hstep { f with bytes := bytes2, content := content2 } hmeta]
  simp [sortOutcome]

/-- C6 counterexample: with `max_file_kb = 0` the effective ceiling is
1024 bytes, so the 13-byte file `"pub fn auth()"` — which EXCEEDS the
claimed ceiling of `0 × 1024 = 0` bytes and contains the query term
`"auth"` verbatim — is scanned, is NOT tallied under `skipped_large`, and
produces a hit. -/
theorem large_file_never_read_counterexample :
    0 * 1024 < 13 ∧
    (search_project ln0 qAuth 0 2 (max_file_bytes_of 0)
        [⟨"auth.rs", some 13,
          some [112, 117, 98, 32, 102, 110, 32, 97, 117, 116, 104, 40, 41],
          "pub fn auth()"⟩]).skipped_large = 0 ∧
    ((search_project ln0 qAuth 0 2 (max_file_bytes_of 0)
        [⟨"auth.rs", some 13,
          some [112, 117, 98, 32, 102, 110, 32, 97, 117, 116, 104, 40, 41],
          "pub fn auth()"⟩]).hits).length = 1 := by
  refine ⟨by decide, by with_unfolding_all decide, by with_unfolding_all decide⟩

/-- Witness for the corrected C6: appending the 2000-byte `bigFile` to an
empty walk with `max_file_kb = 1` (ceiling 1024 bytes) adds one to
`skipped_large` and to `scanned_files`, leaves the hits unchanged, and the
outcome ignores the file's bytes and content. -/
theorem large_file_never_read_witness :
    (search_project ln0 qAuth 0 2 (max_file_bytes_of 1) ([] ++ [bigFile])).skipped_large
      = (search_project ln0 qAuth 0 2 (max_file_bytes_of 1) []).skipped_large + 1 ∧
    (search_project ln0 qAuth 0 2 (max_file_bytes_of 1) ([] ++ [bigFile])).hits
      = (search_project ln0 qAuth 0 2 (max_file_bytes_of 1) []).hits ∧
    (search_project ln0 qAuth 0 2 (max_file_bytes_of 1) ([] ++ [bigFile])).scanned_files
      = (search_project ln0 qAuth 0 2 (max_file_bytes_of 1) []).scanned_files + 1 ∧
    search_project ln0 qAuth 0 2 (max_file_bytes_of 1)
        ([] ++ [{ bigFile with bytes := none, content := "x" }])
      = search_project ln0 qAuth 0 2 (max_file_bytes_of 1) ([] ++ [bigFile]) :=
  large_file_never_read ln0 qAuth 0 2 1 [] bigFile 2000 none "x" rfl (by decide)

/-- Helper: the top-level keys of the rendered JSON document, by case on
whether there are hits. -/
theorem renderJson_keys (query path : String) (max_results : Nat) (outcome : SearchOutcome) :
    topLevelKeys (renderJson query path max_results outcome) =
      if outcome.hits = [] then
        ["query", "path", "total_hits", "scanned_files", "skipped_large",
         "skipped_binary", "hits"]
      else
        ["query", "path", "total_hits", "shown_hits", "scanned_files", "skipped_large",
         "skipped_binary", "hits"] := by
  unfold renderJson
  by_cases h : outcome.hits = []
  · rw [if_pos h, if_pos h]; rfl
  · rw [if_neg h, if_neg h]; rfl

/-- C5 (corrected): a JSON invocation emits the stable field set
`{query, path, total_hits, scanned_files, skipped_large, skipped_binary,
hits}` ALWAYS, and `shown_hits` additionally — but only when there is at
least one hit: the zero-hit object (src/rgai_cmd.rs:113-121) omits
`shown_hits`. -/
theorem run_json_field_set (ln1p : Nat → ℚ) (query path : String)
    (max_results context_lines max_file_kb : Nat) (compact rootExists : Bool)
    (files : List WalkFile) (oc : SearchOutcome) (doc : Json)
    (h : run ln1p query path max_results context_lines max_file_kb true compact rootExists files
      = Except.ok (oc, some doc)) :
    topLevelKeys doc =
      if oc.hits = [] then
        ["query", "path", "total_hits", "scanned_files", "skipped_large",
         "skipped_binary", "hits"]
      else
        ["query", "path", "total_hits", "shown_hits", "scanned_files", "skipped_large",
         "skipped_binary", "hits"] := by
  unfold run at h
  by_cases hq : strTrim query = ""
  · rw [if_pos hq] at h
    exact absurd h (by simp)
  · rw [if_neg hq] at h
    by_cases hr : rootExists = false
    · rw [if_pos hr] at h
      exact absurd h (by simp)
    · rw [if_neg hr] at h
      dsimp only at h
      simp only [eq_self_iff_true, if_true, Except.ok.injEq, Prod.mk.injEq,
        Option.some.injEq] at h
      rw [← h.2, ← h.1]
      exact renderJson_keys _ _ _ _

/-- C5 counterexample: the JSON invocation with query `"auth"` over an
empty walk produces zero hits and its document has NO `shown_hits`
field, refuting "the `shown_hits` field is present also when there are
zero hits". -/
theorem run_json_field_set_counterexample :
    run ln0 "auth" "." 50 0 200 true false true []
      = Except.ok (⟨0, 0, 0, []⟩, some (renderJson "auth" "." 50 ⟨0, 0, 0, []⟩)) ∧
    "shown_hits" ∉ topLevelKeys (renderJson "auth" "." 50 ⟨0, 0, 0, []⟩) := by
  refine ⟨rfl, by decide⟩

/-- Witness for the corrected C5: the field-set theorem evaluated at the
concrete zero-hit JSON invocation with query `"auth"`. -/
theorem run_json_field_set_witness :
    topLevelKeys (renderJson "auth" "." 50 ⟨0, 0, 0, []⟩)
      = ["query", "path", "total_hits", "scanned_files", "skipped_large",
         "skipped_binary", "hits"] :=
  run_json_field_set ln0 "auth" "." 50 0 200 false true [] ⟨0, 0, 0, []⟩
    (renderJson "auth" "." 50 ⟨0, 0, 0, []⟩) rfl

/-- C9 (confirmed): a query that trims to the empty string makes `run`
fail with the `"query cannot be empty"` error whatever the filesystem
contains — the conclusion does not depend on `rootExists` or on `files`,
so the root is never checked, no walk happens and no file is read
(src/rgai_cmd.rs:77-85). -/
theorem run_empty_query (ln1p : Nat → ℚ) (query path : String)
    (max_results context_lines max_file_kb : Nat)
    (json_output compact rootExists : Bool) (files : List WalkFile)
    (h : strTrim query = "") :
    run ln1p query path max_results context_lines max_file_kb json_output compact rootExists
      files = Except.error "query cannot be empty" := by
  unfold run
  rw [h]
  simp

/-- Witness for C9: the whitespace-only query `"   "` fails with the
empty-query error on a filesystem with an existing root and one file. -/
theorem run_empty_query_witness :
    run ln0 "   " "." 50 0 200 true false true [bigFile]
      = Except.error "query cannot be empty" :=
  run_empty_query ln0 "   " "." 50 0 200 true false true [bigFile] (by decide)

end Rgai
